import Mathlib

/-!
Verification development for the hash-chaining-camera repository.

The JavaScript core consists of ingest.js (embedded at the end of
entrypoint.sh), verify.js and generate_keys.js.  We give a shallow
embedding: file contents are byte lists, the SHA-256 hash and the
Ed25519 sign/verify primitives are abstracted into a `Crypto` bundle
of computable functions, the filesystem is a map from path strings to
optional byte lists, and the chain.json file is a three-state value
(absent, present-but-unparseable, or a parsed list of entries).
-/

/-- Bytes of a file, as natural numbers. -/
abbrev Bytes := List Nat

/-- Abstract cryptographic primitives used by the source:
crypto.createHash, crypto.sign(null, .., privKey) and
crypto.verify(null, .., pubKey, sig).  Digests and signatures are hex
strings in the source, so they are strings here. -/
structure Crypto where
  sha256 : Bytes → String
  sign : String → String → String
  sverify : String → String → String → Bool

/-- UTF-8 style byte view of a string: Buffer.from(chainData).  We use
code points, which is injective and agrees on the ASCII payloads the
source produces. -/
def strBytes (s : String) : Bytes := s.data.map Char.toNat

/-- Hash of a string payload: crypto.createHash(sha256).update(chainData). -/
def sha256s (C : Crypto) (s : String) : String := C.sha256 (strBytes s)

/-- Lower-case hex digit. -/
def hexDigit (n : Nat) : Char :=
  if n < 10 then Char.ofNat (48 + n) else Char.ofNat (87 + n)

/-- Two lower-case hex digits of a byte. -/
def hex2 (n : Nat) : String :=
  String.mk [hexDigit (n / 16 % 16), hexDigit (n % 16)]

/-- JSON string escaping of one character, as JSON.stringify performs it. -/
def jsonEscapeChar (c : Char) : String :=
  if c = '"' then "\\\""
  else if c = '\\' then "\\\\"
  else if c = Char.ofNat 8 then "\\b"
  else if c = Char.ofNat 9 then "\\t"
  else if c = Char.ofNat 10 then "\\n"
  else if c = Char.ofNat 12 then "\\f"
  else if c = Char.ofNat 13 then "\\r"
  else if c.toNat < 32 then "\\u00" ++ hex2 c.toNat
  else String.mk [c]

/-- JSON string escaping, as JSON.stringify performs it. -/
def jsonEscape (s : String) : String :=
  String.join (s.data.map jsonEscapeChar)

/-- A JSON string literal. -/
def jsonStr (s : String) : String := "\"" ++ jsonEscape s ++ "\""

/-- The signing payload built in ingest.js:
JSON.stringify of the object with the keys index, timestamp, frameFile,
frameHash, previousHash, in that insertion order. -/
def ingestChainData (index : Nat) (timestamp frameFile frameHash previousHash : String) : String :=
  "\x7b\"index\":" ++ toString index ++
  ",\"timestamp\":" ++ jsonStr timestamp ++
  ",\"frameFile\":" ++ jsonStr frameFile ++
  ",\"frameHash\":" ++ jsonStr frameHash ++
  ",\"previousHash\":" ++ jsonStr previousHash ++ "\x7d"

/-- The payload rebuilt in verify.js:
JSON.stringify of the object with the keys index, timestamp, frameFile,
frameHash, previousHash, in that insertion order. -/
def verifyChainData (index : Nat) (timestamp frameFile frameHash previousHash : String) : String :=
  "\x7b\"index\":" ++ toString index ++
  ",\"timestamp\":" ++ jsonStr timestamp ++
  ",\"frameFile\":" ++ jsonStr frameFile ++
  ",\"frameHash\":" ++ jsonStr frameHash ++
  ",\"previousHash\":" ++ jsonStr previousHash ++ "\x7d"

/-- Modelled from the spec: the canonical encoding of exactly the five
signed fields (index, timestamp, artifactRef, artifactHash,
previousHash) in a fixed order, excluding signature and entryHash.
The spec leaves the concrete text form open; the source fixes it to a
JSON object with the keys above, which this definition adopts so that
the refinement can be stated. -/
def specCanonicalEncoding (index : Nat) (timestamp artifactRef artifactHash previousHash : String) : String :=
  "\x7b\"index\":" ++ toString index ++
  ",\"timestamp\":" ++ jsonStr timestamp ++
  ",\"frameFile\":" ++ jsonStr artifactRef ++
  ",\"frameHash\":" ++ jsonStr artifactHash ++
  ",\"previousHash\":" ++ jsonStr previousHash ++ "\x7d"

/-- One stored chain entry, as written to chain.json by ingest.js. -/
structure ChainEntry where
  index : Nat
  timestamp : String
  frameFile : String
  frameHash : String
  previousHash : String
  signature : String
  hash : String
deriving DecidableEq

/-- State of the chain.json file: missing, present but not valid JSON,
or a parsed array of entries. -/
inductive ChainFile where
  | absent : ChainFile
  | corrupt : ChainFile
  | entries : List ChainEntry → ChainFile
deriving DecidableEq

/-- Result object returned by verifyChain in verify.js. -/
structure VerifyResult where
  success : Bool
  atIndex : Option Nat
  reason : Option String
  count : Nat
  message : Option String
deriving DecidableEq

/-- The two key files under keys/. -/
structure KeyStore where
  privKey : Option String
  pubKey : Option String
deriving DecidableEq

/-- The sentinel previousHash for the first entry: the 64-character
all-zero string produced by the expression repeating the zero digit. -/
def ZERO64 : String := String.mk (List.replicate 64 '0')

/-- path.join of the images directory with a frame file name, as used
by verify.js when resolving an artifact. -/
def imagesPath (f : String) : String := "images/" ++ f

/-- path.basename of a path, as used by ingest.js on its argument. -/
def basename (p : String) : String :=
  String.mk (p.data.foldl (fun acc c => if c = '/' then [] else acc ++ [c]) [])

/-- Hash of the chain head: the stored hash of the last entry, or the
sentinel when the chain is empty. -/
def endHash (prev : String) (l : List ChainEntry) : String :=
  match l.getLast? with
  | some e => e.hash
  | none => prev

/-- Point update of the filesystem map at one path. -/
def setFile (files : String → Option Bytes) (p : String) (d : Bytes) : String → Option Bytes :=
  fun s => if s = p then some d else files s

/-- loadPrivateKey from ingest.js: throws when the private key file is
absent, otherwise returns its contents. -/
def loadPrivateKey (privKey : Option String) : Except String String :=
  match privKey with
  | none => .error "Private key not found. Run generate_keys.js first."
  | some k => .ok k

/-- loadPublicKey from verify.js: throws when the public key file is
absent, otherwise returns its contents. -/
def loadPublicKey (pubKey : Option String) : Except String String :=
  match pubKey with
  | none => .error "Public key not found. Run generate_keys.js first."
  | some k => .ok k

/-- loadChain from ingest.js: an absent file is an empty chain, and a
parse failure is caught and also returned as an empty chain. -/
def loadChainIngest (cf : ChainFile) : List ChainEntry :=
  match cf with
  | .absent => []
  | .corrupt => []
  | .entries l => l

/-- loadChain from verify.js: an absent file is an empty chain, but a
parse failure throws. -/
def loadChainVerify (cf : ChainFile) : Except String (List ChainEntry) :=
  match cf with
  | .absent => .ok []
  | .corrupt => .error "Failed to load chain.json"
  | .entries l => .ok l

/-- The append step of ingest.js: chain.push(entry) followed by
saveChain(chain).  It performs no validation and cannot fail. -/
def rawAppend (chain : List ChainEntry) (e : ChainEntry) : ChainFile :=
  .entries (chain ++ [e])

/-- ingestFrame from ingest.js.  The timestamp is the value of
new Date().toISOString(), an input of the model.  The frame is read
from the filesystem map at the given path; the entry records its
basename.  Key loading happens, as in the source, after the payload is
assembled. -/
def ingestFrame (C : Crypto) (privKey : Option String) (files : String → Option Bytes)
    (cf : ChainFile) (framePath : String) (timestamp : String) :
    Except String (ChainEntry × ChainFile) :=
  match files framePath with
  | none => .error ("Frame file not found: " ++ framePath)
  | some frameData =>
    let frameHash := C.sha256 frameData
    let chain := loadChainIngest cf
    let previousHash := endHash ZERO64 chain
    let index := chain.length
    let frameFile := basename framePath
    let chainData := ingestChainData index timestamp frameFile frameHash previousHash
    match loadPrivateKey privKey with
    | .error m => .error m
    | .ok sk =>
      let signature := C.sign sk chainData
      let chainDataHash := sha256s C chainData
      let entry : ChainEntry :=
        ⟨index, timestamp, frameFile, frameHash, previousHash, signature, chainDataHash⟩
      .ok (entry, rawAppend chain entry)

/-- Sequential ingestion of a list of (framePath, timestamp) pairs. -/
def ingestAll (C : Crypto) (privKey : Option String) (files : String → Option Bytes) :
    ChainFile → List (String × String) → Except String ChainFile
  | cf, [] => .ok cf
  | cf, (p, t) :: rest =>
    match ingestFrame C privKey files cf p t with
    | .error m => .error m
    | .ok (_, cf2) => ingestAll C privKey files cf2 rest

/-- The per-entry loop body of verifyChain in verify.js, iterated over
the remaining entries.  prev carries the stored hash of the previous
entry (initially the sentinel), i the loop position, cnt the total
chain length used in every result. -/
def verifyLoop (C : Crypto) (pk : String) (files : String → Option Bytes) :
    String → Nat → Nat → List ChainEntry → VerifyResult
  | _, _, cnt, [] => ⟨true, none, none, cnt, none⟩
  | prev, i, cnt, e :: rest =>
    if e.index ≠ i then ⟨false, some i, some "index mismatch", cnt, none⟩
    else if e.previousHash ≠ prev then ⟨false, some i, some "hash mismatch", cnt, none⟩
    else
      match files (imagesPath e.frameFile) with
      | none => ⟨false, some i, some "frame file missing", cnt, none⟩
      | some frameData =>
        if e.frameHash ≠ C.sha256 frameData then
          ⟨false, some i, some "frame hash mismatch", cnt, none⟩
        else
          let chainData := verifyChainData e.index e.timestamp e.frameFile e.frameHash e.previousHash
          if C.sverify pk chainData e.signature = false then
            ⟨false, some i, some "signature verification failed", cnt, none⟩
          else if e.hash ≠ sha256s C chainData then
            ⟨false, some i, some "computed hash mismatch", cnt, none⟩
          else verifyLoop C pk files e.hash (i + 1) cnt rest

/-- verifyChain from verify.js.  The outputJson flag of the source only
changes console output, never the returned result, and is omitted.
Exceptions thrown by loadChain and loadPublicKey become the error case
of Except. -/
def verifyChain (C : Crypto) (pubKey : Option String) (cf : ChainFile)
    (files : String → Option Bytes) : Except String VerifyResult :=
  match loadChainVerify cf with
  | .error m => .error m
  | .ok chain =>
    if chain.length = 0 then .ok ⟨true, none, none, 0, some "Chain is empty"⟩
    else
      match loadPublicKey pubKey with
      | .error m => .error m
      | .ok pk => .ok (verifyLoop C pk files ZERO64 0 chain.length chain)

/-- Whole-system state: key files, chain file, filesystem. -/
structure SysState where
  keys : KeyStore
  chainFile : ChainFile
  files : String → Option Bytes

/-- State-passing wrapper of ingestFrame: the source writes only
chain.json (saveChain); the key files are never written on this path. -/
def ingestFrameS (C : Crypto) (s : SysState) (framePath timestamp : String) :
    SysState × Except String ChainEntry :=
  match ingestFrame C s.keys.privKey s.files s.chainFile framePath timestamp with
  | .error m => (s, .error m)
  | .ok (e, cf2) => ({ s with chainFile := cf2 }, .ok e)

/-- State-passing wrapper of verifyChain: the source performs only
reads on this path, so the state is returned unchanged. -/
def verifyChainS (C : Crypto) (s : SysState) : SysState × Except String VerifyResult :=
  (s, verifyChain C s.keys.pubKey s.chainFile s.files)

/-- generateKeys from generate_keys.js: generates a fresh pair (the
nondeterministic output of generateKeyPairSync is an input here) and
unconditionally writes both key files. -/
def generateKeys (fresh : String × String) (_ks : KeyStore) : KeyStore :=
  { privKey := some fresh.1, pubKey := some fresh.2 }

/-- The key-provisioning guard of the container entrypoint: generation
runs only when the private key file is absent. -/
def ensureKeypair (fresh : String × String) (ks : KeyStore) : KeyStore :=
  if ks.privKey.isSome then ks else generateKeys fresh ks

/-- Modelled from the spec: the per-entry verification state machine,
returning the reason of the first failing check in the order sequence,
linkage, artifact presence, artifact hash, signature, entry hash, or
none when every check passes. -/
def specEntryCheck (C : Crypto) (pk : String) (files : String → Option Bytes)
    (prev : String) (i : Nat) (e : ChainEntry) : Option String :=
  if e.index ≠ i then some "index mismatch"
  else if e.previousHash ≠ prev then some "hash mismatch"
  else
    match files (imagesPath e.frameFile) with
    | none => some "frame file missing"
    | some frameData =>
      if e.frameHash ≠ C.sha256 frameData then some "frame hash mismatch"
      else
        let chainData := verifyChainData e.index e.timestamp e.frameFile e.frameHash e.previousHash
        if C.sverify pk chainData e.signature = false then some "signature verification failed"
        else if e.hash ≠ sha256s C chainData then some "computed hash mismatch"
        else none

/-- All six per-entry checks pass for entry e at position i with
expected previous hash prev. -/
def entryOk (C : Crypto) (pk : String) (files : String → Option Bytes)
    (prev : String) (i : Nat) (e : ChainEntry) : Prop :=
  e.index = i ∧
  e.previousHash = prev ∧
  (∃ d, files (imagesPath e.frameFile) = some d ∧ e.frameHash = C.sha256 d) ∧
  C.sverify pk (verifyChainData e.index e.timestamp e.frameFile e.frameHash e.previousHash)
    e.signature = true ∧
  e.hash = sha256s C (verifyChainData e.index e.timestamp e.frameFile e.frameHash e.previousHash)

/-- Every entry of the list passes its checks, threading positions and
stored hashes from the given start state. -/
def chainOkFrom (C : Crypto) (pk : String) (files : String → Option Bytes) :
    String → Nat → List ChainEntry → Prop
  | _, _, [] => True
  | prev, i, e :: rest => entryOk C pk files prev i e ∧ chainOkFrom C pk files e.hash (i + 1) rest

/-- A short digest function used to evaluate theorems on explicit
inputs. -/
def demoHash (l : Bytes) : String :=
  toString (l.foldl (fun a b => (a * 31 + b + 1) % 1000003) 7)

/-- A concrete executable crypto bundle used to evaluate theorems on
explicit inputs: a signature is the key joined with the payload, and
verification checks that shape. -/
def demoCrypto : Crypto where
  sha256 := demoHash
  sign sk m := sk ++ "|" ++ m
  sverify pk m sig := sig == pk ++ "|" ++ m

theorem demoCrypto_sign_ok (k m : String) :
    demoCrypto.sverify k m (demoCrypto.sign k m) = true := by
  simp [demoCrypto]

theorem verifyLoop_ok (C : Crypto) (pk : String) (files : String → Option Bytes) :
    ∀ (l : List ChainEntry) (prev : String) (i cnt : Nat),
      chainOkFrom C pk files prev i l →
      verifyLoop C pk files prev i cnt l = ⟨true, none, none, cnt, none⟩ := by
  intro l
  induction l with
  | nil => intro prev i cnt _; rfl
  | cons e rest ih =>
    intro prev i cnt h
    obtain ⟨⟨h1, h2, ⟨d, hd, hfh⟩, hsig, hh⟩, hrest⟩ := h
    subst h1
    subst h2
    rw [verifyLoop]
    simp only [hd, hsig, ← hfh, ← hh, ne_eq, eq_self_iff_true, not_true, if_false,
      Bool.true_eq_false, not_false_eq_true, ite_false, ite_true]
    exact ih e.hash (e.index + 1) cnt hrest

theorem verifyLoop_ok_inv (C : Crypto) (pk : String) (files : String → Option Bytes) :
    ∀ (l : List ChainEntry) (prev : String) (i cnt : Nat),
      verifyLoop C pk files prev i cnt l = ⟨true, none, none, cnt, none⟩ →
      chainOkFrom C pk files prev i l := by
  intro l
  induction l with
  | nil => intro prev i cnt _; trivial
  | cons e rest ih =>
    intro prev i cnt h
    by_cases h1 : e.index = i
    · subst h1
      by_cases h2 : e.previousHash = prev
      · subst h2
        rcases hd : files (imagesPath e.frameFile) with _ | d
        · rw [verifyLoop] at h
          simp [hd] at h
        · by_cases hfh : e.frameHash = C.sha256 d
          · by_cases hsig : C.sverify pk
              (verifyChainData e.index e.timestamp e.frameFile e.frameHash e.previousHash)
              e.signature = true
            · by_cases hh : e.hash = sha256s C
                (verifyChainData e.index e.timestamp e.frameFile e.frameHash e.previousHash)
              · refine ⟨⟨rfl, rfl, ⟨d, hd, hfh⟩, hsig, hh⟩, ih e.hash (e.index + 1) cnt ?_⟩
                rw [verifyLoop] at h
                simpa only [hd, hsig, ← hfh, ← hh, ne_eq, eq_self_iff_true, not_true, if_false,
                  Bool.true_eq_false, not_false_eq_true, ite_false, ite_true] using h
              · rw [verifyLoop] at h
                simp [hd, hsig, ← hfh, hh] at h
            · rw [Bool.not_eq_true] at hsig
              rw [verifyLoop] at h
              simp [hd, hsig, ← hfh] at h
          · rw [verifyLoop] at h
            simp [hd, hfh] at h
      · rw [verifyLoop] at h
        simp [h2] at h
    · rw [verifyLoop] at h
      simp [h1] at h

theorem endHash_cons (prev : String) (e : ChainEntry) (l : List ChainEntry) :
    endHash prev (e :: l) = endHash e.hash l := by
  cases l with
  | nil => rfl
  | cons f fs =>
    rcases hg : (f :: fs).getLast? with _ | g
    · exact absurd hg (by simp)
    · simp [endHash, List.getLast?_cons_cons, hg]

theorem endHash_concat (prev : String) (l : List ChainEntry) (e : ChainEntry) :
    endHash prev (l ++ [e]) = e.hash := by
  simp [endHash, List.getLast?_concat]

theorem imagesPath_inj {a b : String} (h : imagesPath a = imagesPath b) : a = b := by
  apply String.ext
  have h2 := congrArg String.data h
  rw [imagesPath, imagesPath, String.data_append, String.data_append] at h2
  exact List.append_cancel_left h2

theorem verifyLoop_append (C : Crypto) (pk : String) (files : String → Option Bytes) :
    ∀ (l1 : List ChainEntry) (prev : String) (i cnt : Nat) (rest : List ChainEntry),
      chainOkFrom C pk files prev i l1 →
      verifyLoop C pk files prev i cnt (l1 ++ rest) =
        verifyLoop C pk files (endHash prev l1) (i + l1.length) cnt rest := by
  intro l1
  induction l1 with
  | nil => intro prev i cnt rest _; simp [endHash]
  | cons e l2 ih =>
    intro prev i cnt rest h
    obtain ⟨⟨h1, h2, ⟨d, hd, hfh⟩, hsig, hh⟩, hrest⟩ := h
    subst h1
    subst h2
    rw [List.cons_append, verifyLoop]
    simp only [hd, hsig, ← hfh, ← hh, ne_eq, eq_self_iff_true, not_true, if_false,
      Bool.true_eq_false, not_false_eq_true, ite_false, ite_true]
    rw [ih e.hash (e.index + 1) cnt rest hrest, endHash_cons]
    congr 1
    simp [Nat.add_comm, Nat.add_assoc, Nat.add_left_comm]

theorem chainOkFrom_snoc (C : Crypto) (pk : String) (files : String → Option Bytes) :
    ∀ (l : List ChainEntry) (prev : String) (i : Nat) (e : ChainEntry),
      chainOkFrom C pk files prev i l →
      entryOk C pk files (endHash prev l) (i + l.length) e →
      chainOkFrom C pk files prev i (l ++ [e]) := by
  intro l
  induction l with
  | nil => intro prev i e _ he; exact ⟨by simpa [endHash] using he, trivial⟩
  | cons f fs ih =>
    intro prev i e h he
    obtain ⟨hf, hfs⟩ := h
    refine ⟨hf, ih f.hash (i + 1) e hfs ?_⟩
    rw [endHash_cons] at he
    have harith : i + (f :: fs).length = i + 1 + fs.length := by
      simp [Nat.add_comm, Nat.add_assoc, Nat.add_left_comm]
    rwa [harith] at he

theorem chainOkFrom_congr (C : Crypto) (pk : String) (files files2 : String → Option Bytes) :
    ∀ (l : List ChainEntry) (prev : String) (i : Nat),
      (∀ e ∈ l, files2 (imagesPath e.frameFile) = files (imagesPath e.frameFile)) →
      chainOkFrom C pk files prev i l → chainOkFrom C pk files2 prev i l := by
  intro l
  induction l with
  | nil => intro prev i _ _; trivial
  | cons e rest ih =>
    intro prev i hagree h
    obtain ⟨⟨h1, h2, ⟨d, hd, hfh⟩, hsig, hh⟩, hrest⟩ := h
    refine ⟨⟨h1, h2, ⟨d, ?_, hfh⟩, hsig, hh⟩, ih e.hash (i + 1) (fun f hf => hagree f (by simp [hf])) hrest⟩
    rw [hagree e (by simp)]
    exact hd

theorem chainData_eq (i : Nat) (t f fh ph : String) :
    ingestChainData i t f fh ph = verifyChainData i t f fh ph := rfl

/-- The entry ingestFrame constructs for frame data d over a current
chain l. -/
def builtEntry (C : Crypto) (sk : String) (l : List ChainEntry) (p t : String) (d : Bytes) : ChainEntry :=
  let frameHash := C.sha256 d
  let previousHash := endHash ZERO64 l
  let index := l.length
  let frameFile := basename p
  let chainData := ingestChainData index t frameFile frameHash previousHash
  ⟨index, t, frameFile, frameHash, previousHash, C.sign sk chainData, sha256s C chainData⟩

theorem ingestFrame_eq (C : Crypto) (sk : String) (files : String → Option Bytes)
    (cf : ChainFile) (p t : String) (d : Bytes) (hp : files p = some d) :
    ingestFrame C (some sk) files cf p t =
      .ok (builtEntry C sk (loadChainIngest cf) p t d,
        .entries (loadChainIngest cf ++ [builtEntry C sk (loadChainIngest cf) p t d])) := by
  simp [ingestFrame, hp, builtEntry, loadPrivateKey, rawAppend]

theorem builtEntry_ok (C : Crypto) (sk pk : String) (files : String → Option Bytes)
    (l : List ChainEntry) (p t : String) (d : Bytes)
    (hsig : ∀ m, C.sverify pk m (C.sign sk m) = true)
    (himg : files (imagesPath (basename p)) = some d) :
    entryOk C pk files (endHash ZERO64 l) l.length (builtEntry C sk l p t d) :=
  ⟨rfl, rfl, ⟨d, himg, rfl⟩, hsig _, rfl⟩

/-- The chain file parses the same way on the ingest and the verify
path and denotes the entry list l. -/
def GoodCF (cf : ChainFile) (l : List ChainEntry) : Prop :=
  loadChainVerify cf = .ok l ∧ loadChainIngest cf = l

theorem ingestAll_ok (C : Crypto) (sk pk : String) (files : String → Option Bytes)
    (hsig : ∀ m, C.sverify pk m (C.sign sk m) = true) :
    ∀ (frames : List (String × String)) (cf : ChainFile) (l : List ChainEntry),
      GoodCF cf l → chainOkFrom C pk files ZERO64 0 l →
      (∀ pt ∈ frames, ∃ d, files pt.1 = some d ∧ files (imagesPath (basename pt.1)) = some d) →
      ∃ cf2 l2, ingestAll C (some sk) files cf frames = .ok cf2 ∧ GoodCF cf2 l2 ∧
        chainOkFrom C pk files ZERO64 0 l2 ∧ l2.length = l.length + frames.length := by
  intro frames
  induction frames with
  | nil =>
    intro cf l hg hok _
    exact ⟨cf, l, rfl, hg, hok, rfl⟩
  | cons pt rest ih =>
    intro cf l hg hok hframes
    obtain ⟨d, hp, himg⟩ := hframes pt (by simp)
    have hstep := ingestFrame_eq C sk files cf pt.1 pt.2 d hp
    rw [hg.2] at hstep
    have hok2 : chainOkFrom C pk files ZERO64 0 (l ++ [builtEntry C sk l pt.1 pt.2 d]) := by
      apply chainOkFrom_snoc C pk files l ZERO64 0 _ hok
      rw [Nat.zero_add]
      exact builtEntry_ok C sk pk files l pt.1 pt.2 d hsig himg
    obtain ⟨cf2, l2, hrun, hg2, hok3, hlen⟩ :=
      ih (.entries (l ++ [builtEntry C sk l pt.1 pt.2 d])) (l ++ [builtEntry C sk l pt.1 pt.2 d])
        ⟨rfl, rfl⟩ hok2 (fun q hq => hframes q (by simp [hq]))
    refine ⟨cf2, l2, ?_, hg2, hok3, ?_⟩
    · show ingestAll C (some sk) files cf (pt :: rest) = .ok cf2
      cases pt with
      | mk p t =>
        rw [ingestAll]
        rw [hstep]
        exact hrun
    · rw [hlen]
      simp [Nat.add_comm, Nat.add_assoc, Nat.add_left_comm]

/-- C1: for every N greater or equal zero, with the keypair present,
sequentially ingesting N frames that are present in the images
directory and left unmodified yields a chain file on which verifyChain
returns success true with count N; for N equal zero the chain file is
absent and verification returns success true with count zero. -/
theorem fresh_chain_verifies (C : Crypto) (sk pk : String) (files : String → Option Bytes)
    (frames : List (String × String))
    (hsig : ∀ m, C.sverify pk m (C.sign sk m) = true)
    (hframes : ∀ pt ∈ frames, ∃ d, files pt.1 = some d ∧
      files (imagesPath (basename pt.1)) = some d) :
    ∃ cf r, ingestAll C (some sk) files ChainFile.absent frames = .ok cf ∧
      verifyChain C (some pk) cf files = .ok r ∧ r.success = true ∧ r.count = frames.length := by
  obtain ⟨cf2, l2, hrun, hg2, hok, hlen⟩ :=
    ingestAll_ok C sk pk files hsig frames ChainFile.absent [] ⟨rfl, rfl⟩ trivial hframes
  simp only [List.length_nil, Nat.zero_add] at hlen
  refine ⟨cf2, ?_⟩
  by_cases hl : l2.length = 0
  · refine ⟨⟨true, none, none, 0, some "Chain is empty"⟩, hrun, ?_, rfl, ?_⟩
    · rw [verifyChain, hg2.1]
      simp [hl]
    · show (0 : Nat) = frames.length
      omega
  · refine ⟨⟨true, none, none, l2.length, none⟩, hrun, ?_, rfl, hlen⟩
    · rw [verifyChain, hg2.1]
      simp only [hl, if_false, loadPublicKey]
      rw [verifyLoop_ok C pk files l2 ZERO64 0 l2.length hok]

/-- Concrete filesystem for evaluating theorems: two frames, each
present both at its ingest path and in the images directory. -/
def demoFiles : String → Option Bytes := fun s =>
  if s = "f1.jpg" ∨ s = imagesPath "f1.jpg" then some [10, 20]
  else if s = "f2.jpg" ∨ s = imagesPath "f2.jpg" then some [30]
  else none

/-- Witness for C1 at an explicit two-frame input. -/
theorem fresh_chain_verifies_witness :
    (∀ m, demoCrypto.sverify "k" m (demoCrypto.sign "k" m) = true) ∧
    ∃ cf r, ingestAll demoCrypto (some "k") demoFiles ChainFile.absent
        [("f1.jpg", "t1"), ("f2.jpg", "t2")] = .ok cf ∧
      verifyChain demoCrypto (some "k") cf demoFiles = .ok r ∧ r.success = true ∧
      r.count = [("f1.jpg", "t1"), ("f2.jpg", "t2")].length := by
  have h1 : ∀ m, demoCrypto.sverify "k" m (demoCrypto.sign "k" m) = true := demoCrypto_sign_ok "k"
  have h2 : ∀ pt ∈ ([("f1.jpg", "t1"), ("f2.jpg", "t2")] : List (String × String)),
      ∃ d, demoFiles pt.1 = some d ∧ demoFiles (imagesPath (basename pt.1)) = some d := by
    intro pt hpt
    simp only [List.mem_cons, List.not_mem_nil, or_false] at hpt
    rcases hpt with h | h
    · subst h; exact ⟨[10, 20], rfl, rfl⟩
    · subst h; exact ⟨[30], rfl, rfl⟩
  exact ⟨h1, fresh_chain_verifies demoCrypto "k" "k" demoFiles _ h1 h2⟩

theorem verifyLoop_cons_spec (C : Crypto) (pk : String) (files : String → Option Bytes)
    (prev : String) (i cnt : Nat) (e : ChainEntry) (rest : List ChainEntry) :
    verifyLoop C pk files prev i cnt (e :: rest) =
      match specEntryCheck C pk files prev i e with
      | some r => ⟨false, some i, some r, cnt, none⟩
      | none => verifyLoop C pk files e.hash (i + 1) cnt rest := by
  rw [verifyLoop, specEntryCheck]
  by_cases h1 : e.index ≠ i
  · rw [if_pos h1, if_pos h1]
  · rw [if_neg h1, if_neg h1]
    by_cases h2 : e.previousHash ≠ prev
    · rw [if_pos h2, if_pos h2]
    · rw [if_neg h2, if_neg h2]
      rcases hd : files (imagesPath e.frameFile) with _ | d
      · rfl
      · dsimp only
        by_cases h3 : e.frameHash ≠ C.sha256 d
        · rw [if_pos h3, if_pos h3]
        · rw [if_neg h3, if_neg h3]
          by_cases h4 : C.sverify pk
              (verifyChainData e.index e.timestamp e.frameFile e.frameHash e.previousHash)
              e.signature = false
          · rw [if_pos h4, if_pos h4]
          · rw [if_neg h4, if_neg h4]
            by_cases h5 : e.hash ≠ sha256s C
                (verifyChainData e.index e.timestamp e.frameFile e.frameHash e.previousHash)
            · rw [if_pos h5, if_pos h5]
            · rw [if_neg h5, if_neg h5]

theorem verifyLoop_fail_append (C : Crypto) (pk : String) (files : String → Option Bytes) :
    ∀ (l : List ChainEntry) (prev : String) (i cnt j : Nat) (r : String) (l2 : List ChainEntry),
      verifyLoop C pk files prev i cnt l = ⟨false, some j, some r, cnt, none⟩ →
      verifyLoop C pk files prev i cnt (l ++ l2) = ⟨false, some j, some r, cnt, none⟩ := by
  intro l
  induction l with
  | nil =>
    intro prev i cnt j r l2 h
    rw [verifyLoop] at h
    simp at h
  | cons e rest ih =>
    intro prev i cnt j r l2 h
    rw [verifyLoop_cons_spec] at h
    rw [List.cons_append, verifyLoop_cons_spec]
    rcases hc : specEntryCheck C pk files prev i e with _ | r0
    · rw [hc] at h
      dsimp only at h ⊢
      exact ih e.hash (i + 1) cnt j r l2 h
    · rw [hc] at h
      dsimp only at h ⊢
      exact h

/-- C2: for every chain, verifyChain checks each entry in the order
sequence, linkage, artifact presence, artifact hash, signature, entry
hash, and on the first failing check returns immediately with success
false, that entry position and that reason; the checks of later
entries do not influence the failure result. -/
theorem verify_first_failure_authoritative (C : Crypto) (pk : String)
    (files : String → Option Bytes) :
    (∀ (prev : String) (i cnt : Nat) (e : ChainEntry) (rest : List ChainEntry),
      verifyLoop C pk files prev i cnt (e :: rest) =
        match specEntryCheck C pk files prev i e with
        | some r => ⟨false, some i, some r, cnt, none⟩
        | none => verifyLoop C pk files e.hash (i + 1) cnt rest) ∧
    (∀ (l : List ChainEntry) (prev : String) (i cnt j : Nat) (r : String) (l2 : List ChainEntry),
      verifyLoop C pk files prev i cnt l = ⟨false, some j, some r, cnt, none⟩ →
      verifyLoop C pk files prev i cnt (l ++ l2) = ⟨false, some j, some r, cnt, none⟩) :=
  ⟨verifyLoop_cons_spec C pk files, verifyLoop_fail_append C pk files⟩

/-- An entry whose index field is deliberately wrong, for witnesses. -/
def badIndexEntry : ChainEntry := ⟨5, "t", "f1.jpg", "x", ZERO64, "sig", "h"⟩

/-- Witness for C2: at a concrete one-entry chain with a wrong index,
the loop fails at position 0 with the sequence reason, and appending a
further entry does not change the failure. -/
theorem verify_first_failure_authoritative_witness :
    verifyLoop demoCrypto "k" demoFiles ZERO64 0 2 [badIndexEntry] =
      ⟨false, some 0, some "index mismatch", 2, none⟩ ∧
    verifyLoop demoCrypto "k" demoFiles ZERO64 0 2 ([badIndexEntry] ++ [badIndexEntry]) =
      ⟨false, some 0, some "index mismatch", 2, none⟩ := by
  have h : verifyLoop demoCrypto "k" demoFiles ZERO64 0 2 [badIndexEntry] =
      ⟨false, some 0, some "index mismatch", 2, none⟩ := by rfl
  exact ⟨h, (verify_first_failure_authoritative demoCrypto "k" demoFiles).2
    [badIndexEntry] ZERO64 0 2 0 "index mismatch" [badIndexEntry] h⟩

/-- C3: the payload built at ingestion equals the payload rebuilt at
verification for the same five field values, both agree with the
canonical encoding of exactly those five fields in fixed order
excluding signature and entryHash, and the encoding is deterministic:
identical field values yield identical bytes. -/
theorem signing_payload_deterministic :
    (∀ (i : Nat) (t f fh ph : String),
      ingestChainData i t f fh ph = verifyChainData i t f fh ph) ∧
    (∀ (i : Nat) (t f fh ph : String),
      ingestChainData i t f fh ph = specCanonicalEncoding i t f fh ph) ∧
    (∀ (i1 : Nat) (t1 f1 fh1 ph1 : String) (i2 : Nat) (t2 f2 fh2 ph2 : String),
      i1 = i2 → t1 = t2 → f1 = f2 → fh1 = fh2 → ph1 = ph2 →
      strBytes (ingestChainData i1 t1 f1 fh1 ph1) = strBytes (ingestChainData i2 t2 f2 fh2 ph2)) := by
  refine ⟨fun _ _ _ _ _ => rfl, fun _ _ _ _ _ => rfl, ?_⟩
  intro i1 t1 f1 fh1 ph1 i2 t2 f2 fh2 ph2 h1 h2 h3 h4 h5
  subst h1; subst h2; subst h3; subst h4; subst h5
  rfl

/-- Witness for C3 at explicit field values. -/
theorem signing_payload_deterministic_witness :
    ingestChainData 0 "t0" "f1.jpg" "ab" ZERO64 = verifyChainData 0 "t0" "f1.jpg" "ab" ZERO64 ∧
    ingestChainData 0 "t0" "f1.jpg" "ab" ZERO64 = specCanonicalEncoding 0 "t0" "f1.jpg" "ab" ZERO64 ∧
    strBytes (ingestChainData 0 "t0" "f1.jpg" "ab" ZERO64) =
      strBytes (ingestChainData 0 "t0" "f1.jpg" "ab" ZERO64) :=
  ⟨signing_payload_deterministic.1 0 "t0" "f1.jpg" "ab" ZERO64,
   signing_payload_deterministic.2.1 0 "t0" "f1.jpg" "ab" ZERO64,
   signing_payload_deterministic.2.2 0 "t0" "f1.jpg" "ab" ZERO64 0 "t0" "f1.jpg" "ab" ZERO64
     rfl rfl rfl rfl rfl⟩

theorem chainOkFrom_append_inv (C : Crypto) (pk : String) (files : String → Option Bytes) :
    ∀ (a b : List ChainEntry) (prev : String) (i : Nat),
      chainOkFrom C pk files prev i (a ++ b) →
      chainOkFrom C pk files prev i a ∧
        chainOkFrom C pk files (endHash prev a) (i + a.length) b := by
  intro a
  induction a with
  | nil =>
    intro b prev i h
    exact ⟨trivial, by simpa [endHash] using h⟩
  | cons e rest ih =>
    intro b prev i h
    obtain ⟨he, hrest⟩ := h
    obtain ⟨h1, h2⟩ := ih b e.hash (i + 1) hrest
    refine ⟨⟨he, h1⟩, ?_⟩
    rw [endHash_cons]
    have h3 : i + (e :: rest).length = i + 1 + rest.length := by
      simp only [List.length_cons]
      omega
    rw [h3]
    exact h2

theorem verify_tamper_at (C : Crypto) (pk : String) (files : String → Option Bytes)
    (l1 l2 : List ChainEntry) (x : ChainEntry) (r : String)
    (hok1 : chainOkFrom C pk files ZERO64 0 l1)
    (hcheck : specEntryCheck C pk files (endHash ZERO64 l1) l1.length x = some r) :
    verifyChain C (some pk) (.entries (l1 ++ x :: l2)) files =
      .ok ⟨false, some l1.length, some r, (l1 ++ x :: l2).length, none⟩ := by
  rw [verifyChain]
  dsimp only [loadChainVerify, loadPublicKey]
  have hne : ¬(l1 ++ x :: l2).length = 0 := by simp
  rw [if_neg hne]
  rw [verifyLoop_append C pk files l1 ZERO64 0 _ (x :: l2) hok1]
  rw [verifyLoop_cons_spec, Nat.zero_add, hcheck]

/-- First entry of the duplicate-artifact chain, referencing frame f. -/
def dupE0 : ChainEntry := builtEntry demoCrypto "k" [] "f" "t0" [1, 2, 3]

/-- Second entry of the duplicate-artifact chain, referencing the same
frame f. -/
def dupE1 : ChainEntry := builtEntry demoCrypto "k" [dupE0] "f" "t1" [1, 2, 3]

/-- A valid chain whose two entries reference the same artifact. -/
def dupChain : List ChainEntry := [dupE0, dupE1]

/-- Filesystem holding the single shared artifact of dupChain. -/
def dupFiles : String → Option Bytes := fun s =>
  if s = imagesPath "f" then some [1, 2, 3] else none

set_option maxRecDepth 8192 in
/-- C4 counterexample: in the valid two-entry chain dupChain both
entries reference artifact f; flipping byte 0 of that artifact makes
verification fail at index 0 with the frame hash mismatch reason, even
when the flipped byte is viewed as tampering with the artifact of
entry 1, so the failure index is not the index 1 the claim demands. -/
theorem artifact_tamper_counterexample :
    verifyChain demoCrypto (some "k") (.entries dupChain) dupFiles =
      .ok ⟨true, none, none, 2, none⟩ ∧
    dupChain.get? 1 = some dupE1 ∧
    dupE1.frameFile = "f" ∧
    dupFiles (imagesPath "f") = some [1, 2, 3] ∧
    Nat.xor 1 255 ≠ 1 ∧
    verifyChain demoCrypto (some "k") (.entries dupChain)
      (setFile dupFiles (imagesPath "f") (List.set [1, 2, 3] 0 (Nat.xor 1 255))) =
      .ok ⟨false, some 0, some "frame hash mismatch", 2, none⟩ := by
  exact ⟨rfl, rfl, rfl, rfl, by decide, rfl⟩

/-- C4 amended: for a valid chain and an entry at position i whose
artifact no earlier entry references, replacing one byte of that
artifact (with no hash collision) makes verification fail exactly at
index i with the frame hash mismatch reason; no earlier index is
reported. -/
theorem artifact_tamper_detected (C : Crypto) (pk : String) (files : String → Option Bytes)
    (l1 l2 : List ChainEntry) (e : ChainEntry) (d : Bytes) (pos b : Nat)
    (hvalid : verifyLoop C pk files ZERO64 0 (l1 ++ e :: l2).length (l1 ++ e :: l2) =
      ⟨true, none, none, (l1 ++ e :: l2).length, none⟩)
    (hd : files (imagesPath e.frameFile) = some d)
    (hpos : pos < d.length)
    (hb : b ≠ d.getD pos 0)
    (hcoll : C.sha256 (d.set pos b) ≠ C.sha256 d)
    (hdistinct : ∀ f ∈ l1, f.frameFile ≠ e.frameFile) :
    verifyChain C (some pk) (.entries (l1 ++ e :: l2))
      (setFile files (imagesPath e.frameFile) (d.set pos b)) =
      .ok ⟨false, some l1.length, some "frame hash mismatch", (l1 ++ e :: l2).length, none⟩ := by
  have hall := verifyLoop_ok_inv C pk files (l1 ++ e :: l2) ZERO64 0 _ hvalid
  obtain ⟨hok1, hok2⟩ := chainOkFrom_append_inv C pk files l1 (e :: l2) ZERO64 0 hall
  obtain ⟨he, _⟩ := hok2
  rw [Nat.zero_add] at he
  obtain ⟨he1, he2, ⟨d0, hd0, hfh0⟩, _, _⟩ := he
  have hdd : d0 = d := by
    rw [hd0] at hd
    exact Option.some.inj hd
  subst hdd
  have hagree : ∀ f ∈ l1,
      setFile files (imagesPath e.frameFile) (d0.set pos b) (imagesPath f.frameFile) =
        files (imagesPath f.frameFile) := by
    intro f hf
    rw [setFile]
    rw [if_neg]
    intro hcontra
    exact hdistinct f hf (imagesPath_inj hcontra)
  have hok1b := chainOkFrom_congr C pk files
    (setFile files (imagesPath e.frameFile) (d0.set pos b)) l1 ZERO64 0 hagree hok1
  have hcheck : specEntryCheck C pk (setFile files (imagesPath e.frameFile) (d0.set pos b))
      (endHash ZERO64 l1) l1.length e = some "frame hash mismatch" := by
    rw [specEntryCheck]
    rw [if_neg (by rw [he1]; exact fun h => h rfl)]
    rw [if_neg (by rw [he2]; exact fun h => h rfl)]
    have hlook : setFile files (imagesPath e.frameFile) (d0.set pos b) (imagesPath e.frameFile) =
        some (d0.set pos b) := by
      rw [setFile, if_pos rfl]
    rw [hlook]
    dsimp only
    rw [if_pos (by rw [hfh0]; exact Ne.symm hcoll)]
  exact verify_tamper_at C pk _ l1 l2 e _ hok1b hcheck

/-- First entry of the distinct-artifact demo chain. -/
def okE0 : ChainEntry := builtEntry demoCrypto "k" [] "f1.jpg" "t1" [10, 20]

/-- Second entry of the distinct-artifact demo chain. -/
def okE1 : ChainEntry := builtEntry demoCrypto "k" [okE0] "f2.jpg" "t2" [30]

/-- A valid two-entry chain over demoFiles with distinct artifacts. -/
def okChain : List ChainEntry := [okE0, okE1]

set_option maxRecDepth 8192 in
/-- Witness for the amended C4 at a concrete chain: flipping byte 0 of
the artifact of entry 1 fails verification exactly at index 1. -/
theorem artifact_tamper_detected_witness :
    (verifyLoop demoCrypto "k" demoFiles ZERO64 0 ([okE0] ++ okE1 :: []).length
      ([okE0] ++ okE1 :: []) = ⟨true, none, none, ([okE0] ++ okE1 :: []).length, none⟩) ∧
    demoCrypto.sha256 (List.set [30] 0 (Nat.xor 30 255)) ≠ demoCrypto.sha256 [30] ∧
    verifyChain demoCrypto (some "k") (.entries ([okE0] ++ okE1 :: []))
      (setFile demoFiles (imagesPath okE1.frameFile) (List.set [30] 0 (Nat.xor 30 255))) =
      .ok ⟨false, some 1, some "frame hash mismatch", ([okE0] ++ okE1 :: []).length, none⟩ := by
  have h1 : verifyLoop demoCrypto "k" demoFiles ZERO64 0 ([okE0] ++ okE1 :: []).length
      ([okE0] ++ okE1 :: []) = ⟨true, none, none, ([okE0] ++ okE1 :: []).length, none⟩ := by decide
  have h2 : demoFiles (imagesPath okE1.frameFile) = some [30] := by decide
  have h3 : (0 : Nat) < ([30] : Bytes).length := by decide
  have h4 : Nat.xor 30 255 ≠ ([30] : Bytes).getD 0 0 := by decide
  have h5 : demoCrypto.sha256 (List.set [30] 0 (Nat.xor 30 255)) ≠ demoCrypto.sha256 [30] := by decide
  have h6 : ∀ f ∈ [okE0], f.frameFile ≠ okE1.frameFile := by decide
  exact ⟨h1, h5, artifact_tamper_detected demoCrypto "k" demoFiles [okE0] [] okE1 [30] 0
    (Nat.xor 30 255) h1 h2 h3 h4 h5 h6⟩

set_option maxRecDepth 8192 in
/-- C5 counterexample: corrupting the stored artifactHash (frameHash)
of entry 1 of a valid chain in storage, without re-signing, makes
verification fail at index 1 with the frame hash mismatch reason,
which is neither SignatureInvalid nor EntryHashMismatch as the claim
demands; index 2 is not reported. -/
theorem entry_field_tamper_counterexample :
    verifyChain demoCrypto (some "k") (.entries okChain) demoFiles =
      .ok ⟨true, none, none, 2, none⟩ ∧
    verifyChain demoCrypto (some "k")
      (.entries [okE0, { okE1 with frameHash := "ff" }]) demoFiles =
      .ok ⟨false, some 1, some "frame hash mismatch", 2, none⟩ ∧
    "frame hash mismatch" ≠ "signature verification failed" ∧
    "frame hash mismatch" ≠ "computed hash mismatch" := by
  exact ⟨rfl, rfl, by decide, by decide⟩

/-- C5 amended: altering any single stored field of entry i of a valid
chain, without recomputing its hash or signature, makes verification
fail exactly at index i, never at a later index; the reason is the
first check the alteration breaks: index mismatch for the index field,
hash mismatch for previousHash, frame file missing for frameFile when
the new name resolves to no artifact, frame hash mismatch for
frameHash, signature verification failed for timestamp and for
signature (when the stored signature does not verify against the
altered data), and computed hash mismatch for the entry hash field. -/
theorem entry_field_tamper_detected (C : Crypto) (pk : String) (files : String → Option Bytes)
    (l1 l2 : List ChainEntry) (e : ChainEntry)
    (vIdx : Nat) (vTs vFile vFh vPh vSig vH : String)
    (hvalid : verifyLoop C pk files ZERO64 0 (l1 ++ e :: l2).length (l1 ++ e :: l2) =
      ⟨true, none, none, (l1 ++ e :: l2).length, none⟩)
    (hIdx : vIdx ≠ e.index)
    (hPh : vPh ≠ e.previousHash)
    (hFile : files (imagesPath vFile) = none)
    (hFh : vFh ≠ e.frameHash)
    (hTs : C.sverify pk (verifyChainData e.index vTs e.frameFile e.frameHash e.previousHash)
      e.signature = false)
    (hSig : C.sverify pk
      (verifyChainData e.index e.timestamp e.frameFile e.frameHash e.previousHash) vSig = false)
    (hH : vH ≠ e.hash) :
    verifyChain C (some pk) (.entries (l1 ++ { e with index := vIdx } :: l2)) files =
      .ok ⟨false, some l1.length, some "index mismatch",
        (l1 ++ { e with index := vIdx } :: l2).length, none⟩ ∧
    verifyChain C (some pk) (.entries (l1 ++ { e with previousHash := vPh } :: l2)) files =
      .ok ⟨false, some l1.length, some "hash mismatch",
        (l1 ++ { e with previousHash := vPh } :: l2).length, none⟩ ∧
    verifyChain C (some pk) (.entries (l1 ++ { e with frameFile := vFile } :: l2)) files =
      .ok ⟨false, some l1.length, some "frame file missing",
        (l1 ++ { e with frameFile := vFile } :: l2).length, none⟩ ∧
    verifyChain C (some pk) (.entries (l1 ++ { e with frameHash := vFh } :: l2)) files =
      .ok ⟨false, some l1.length, some "frame hash mismatch",
        (l1 ++ { e with frameHash := vFh } :: l2).length, none⟩ ∧
    verifyChain C (some pk) (.entries (l1 ++ { e with timestamp := vTs } :: l2)) files =
      .ok ⟨false, some l1.length, some "signature verification failed",
        (l1 ++ { e with timestamp := vTs } :: l2).length, none⟩ ∧
    verifyChain C (some pk) (.entries (l1 ++ { e with signature := vSig } :: l2)) files =
      .ok ⟨false, some l1.length, some "signature verification failed",
        (l1 ++ { e with signature := vSig } :: l2).length, none⟩ ∧
    verifyChain C (some pk) (.entries (l1 ++ { e with hash := vH } :: l2)) files =
      .ok ⟨false, some l1.length, some "computed hash mismatch",
        (l1 ++ { e with hash := vH } :: l2).length, none⟩ := by
  have hall := verifyLoop_ok_inv C pk files (l1 ++ e :: l2) ZERO64 0 _ hvalid
  obtain ⟨hok1, hok2⟩ := chainOkFrom_append_inv C pk files l1 (e :: l2) ZERO64 0 hall
  obtain ⟨he, _⟩ := hok2
  rw [Nat.zero_add] at he
  obtain ⟨he1, he2, ⟨d0, hd0, hfh0⟩, hsv, hsh⟩ := he
  refine ⟨?_, ?_, ?_, ?_, ?_, ?_, ?_⟩
  all_goals apply verify_tamper_at C pk files l1 l2 _ _ hok1
  · rw [specEntryCheck]
    rw [if_pos (show vIdx ≠ l1.length from he1 ▸ hIdx)]
  · rw [specEntryCheck]
    rw [if_neg (show ¬(e.index ≠ l1.length) from fun hcon => hcon he1)]
    rw [if_pos (show vPh ≠ endHash ZERO64 l1 from he2 ▸ hPh)]
  · rw [specEntryCheck]
    rw [if_neg (show ¬(e.index ≠ l1.length) from fun hcon => hcon he1)]
    rw [if_neg (show ¬(e.previousHash ≠ endHash ZERO64 l1) from fun hcon => hcon he2)]
    rw [hFile]
  · rw [specEntryCheck]
    rw [if_neg (show ¬(e.index ≠ l1.length) from fun hcon => hcon he1)]
    rw [if_neg (show ¬(e.previousHash ≠ endHash ZERO64 l1) from fun hcon => hcon he2)]
    rw [hd0]
    dsimp only
    rw [if_pos (show vFh ≠ C.sha256 d0 from hfh0 ▸ hFh)]
  · rw [specEntryCheck]
    rw [if_neg (show ¬(e.index ≠ l1.length) from fun hcon => hcon he1)]
    rw [if_neg (show ¬(e.previousHash ≠ endHash ZERO64 l1) from fun hcon => hcon he2)]
    rw [hd0]
    dsimp only
    rw [if_neg (show ¬(e.frameHash ≠ C.sha256 d0) from fun hcon => hcon hfh0)]
    rw [if_pos hTs]
  · rw [specEntryCheck]
    rw [if_neg (show ¬(e.index ≠ l1.length) from fun hcon => hcon he1)]
    rw [if_neg (show ¬(e.previousHash ≠ endHash ZERO64 l1) from fun hcon => hcon he2)]
    rw [hd0]
    dsimp only
    rw [if_neg (show ¬(e.frameHash ≠ C.sha256 d0) from fun hcon => hcon hfh0)]
    rw [if_pos hSig]
  · rw [specEntryCheck]
    rw [if_neg (show ¬(e.index ≠ l1.length) from fun hcon => hcon he1)]
    rw [if_neg (show ¬(e.previousHash ≠ endHash ZERO64 l1) from fun hcon => hcon he2)]
    rw [hd0]
    dsimp only
    rw [if_neg (show ¬(e.frameHash ≠ C.sha256 d0) from fun hcon => hcon hfh0)]
    rw [if_neg (show ¬(C.sverify pk
      (verifyChainData e.index e.timestamp e.frameFile e.frameHash e.previousHash)
      e.signature = false) from by simp [hsv])]
    rw [if_pos (show vH ≠ sha256s C
      (verifyChainData e.index e.timestamp e.frameFile e.frameHash e.previousHash)
      from hsh ▸ hH)]

set_option maxRecDepth 8192 in
/-- Witness for the amended C5 at a concrete two-entry chain, altering
each field of entry 1 in turn. -/
theorem entry_field_tamper_detected_witness :
    (verifyLoop demoCrypto "k" demoFiles ZERO64 0 ([okE0] ++ okE1 :: []).length
      ([okE0] ++ okE1 :: []) = ⟨true, none, none, ([okE0] ++ okE1 :: []).length, none⟩) ∧
    (verifyChain demoCrypto (some "k") (.entries ([okE0] ++ { okE1 with index := 7 } :: [])) demoFiles =
      .ok ⟨false, some 1, some "index mismatch", 2, none⟩ ∧
    verifyChain demoCrypto (some "k") (.entries ([okE0] ++ { okE1 with previousHash := "pp" } :: [])) demoFiles =
      .ok ⟨false, some 1, some "hash mismatch", 2, none⟩ ∧
    verifyChain demoCrypto (some "k") (.entries ([okE0] ++ { okE1 with frameFile := "nope.jpg" } :: [])) demoFiles =
      .ok ⟨false, some 1, some "frame file missing", 2, none⟩ ∧
    verifyChain demoCrypto (some "k") (.entries ([okE0] ++ { okE1 with frameHash := "ff" } :: [])) demoFiles =
      .ok ⟨false, some 1, some "frame hash mismatch", 2, none⟩ ∧
    verifyChain demoCrypto (some "k") (.entries ([okE0] ++ { okE1 with timestamp := "zz" } :: [])) demoFiles =
      .ok ⟨false, some 1, some "signature verification failed", 2, none⟩ ∧
    verifyChain demoCrypto (some "k") (.entries ([okE0] ++ { okE1 with signature := "ss" } :: [])) demoFiles =
      .ok ⟨false, some 1, some "signature verification failed", 2, none⟩ ∧
    verifyChain demoCrypto (some "k") (.entries ([okE0] ++ { okE1 with hash := "hh" } :: [])) demoFiles =
      .ok ⟨false, some 1, some "computed hash mismatch", 2, none⟩) := by
  have h0 : verifyLoop demoCrypto "k" demoFiles ZERO64 0 ([okE0] ++ okE1 :: []).length
      ([okE0] ++ okE1 :: []) = ⟨true, none, none, ([okE0] ++ okE1 :: []).length, none⟩ := by decide
  refine ⟨h0, ?_⟩
  exact entry_field_tamper_detected demoCrypto "k" demoFiles [okE0] [] okE1
    7 "zz" "nope.jpg" "ff" "pp" "ss" "hh" h0
    (by decide) (by decide) (by decide) (by decide) (by decide) (by decide) (by decide)

/-- C6 counterexample: the append path performs no validation: pushing
an entry whose index is 5 onto an empty chain succeeds (the operation
has no failure case) and changes the stored length from 0 to 1, where
the claim demands a SequenceViolation failure with the stored length
unchanged. -/
theorem append_no_validation_counterexample :
    badIndexEntry.index ≠ ([] : List ChainEntry).length ∧
    rawAppend [] badIndexEntry = ChainFile.entries [badIndexEntry] ∧
    (loadChainIngest (rawAppend [] badIndexEntry)).length = 1 := by
  exact ⟨by decide, rfl, rfl⟩

/-- C6 amended: the append step of the source rejects nothing: it
stores any entry unconditionally and grows the chain by one; invalid
entries instead cannot arise through the implemented path, because
ingestFrame always constructs the appended entry with index equal to
the current chain length and previousHash equal to the current head
hash, or the sentinel when the chain is empty. -/
theorem append_unvalidated_builder_consistent :
    (∀ (chain : List ChainEntry) (e : ChainEntry),
      rawAppend chain e = ChainFile.entries (chain ++ [e]) ∧
      (loadChainIngest (rawAppend chain e)).length = chain.length + 1) ∧
    (∀ (C : Crypto) (sk : String) (files : String → Option Bytes) (cf : ChainFile)
      (p t : String) (e : ChainEntry) (cf2 : ChainFile),
      ingestFrame C (some sk) files cf p t = .ok (e, cf2) →
      e.index = (loadChainIngest cf).length ∧
      e.previousHash = endHash ZERO64 (loadChainIngest cf) ∧
      cf2 = ChainFile.entries (loadChainIngest cf ++ [e])) := by
  refine ⟨fun chain e => ⟨rfl, by simp [rawAppend, loadChainIngest]⟩, ?_⟩
  intro C sk files cf p t e cf2 h
  rcases hp : files p with _ | d
  · rw [ingestFrame, hp] at h
    exact absurd h (by simp)
  · rw [ingestFrame_eq C sk files cf p t d hp] at h
    have h3 := Except.ok.inj h
    have he := congrArg Prod.fst h3
    have hcf := congrArg Prod.snd h3
    dsimp at he hcf
    subst he
    exact ⟨rfl, rfl, hcf.symm⟩

set_option maxRecDepth 8192 in
/-- Witness for the amended C6: a concrete ingest into an empty chain
produces the entry with index 0 and the sentinel previousHash and
appends it. -/
theorem append_unvalidated_builder_consistent_witness :
    ingestFrame demoCrypto (some "k") demoFiles ChainFile.absent "f1.jpg" "t1" =
      .ok (okE0, ChainFile.entries [okE0]) ∧
    (okE0.index = 0 ∧ okE0.previousHash = ZERO64 ∧
      ChainFile.entries [okE0] = ChainFile.entries (loadChainIngest ChainFile.absent ++ [okE0])) := by
  have h : ingestFrame demoCrypto (some "k") demoFiles ChainFile.absent "f1.jpg" "t1" =
      .ok (okE0, ChainFile.entries [okE0]) := rfl
  exact ⟨h, append_unvalidated_builder_consistent.2 demoCrypto "k" demoFiles ChainFile.absent
    "f1.jpg" "t1" okE0 (ChainFile.entries [okE0]) h⟩

/-- C7 counterexample: generateKeys invoked while a keypair already
exists does not load and return the existing pair unchanged: it
overwrites both key files with the freshly generated pair. -/
theorem generateKeys_overwrites_counterexample :
    generateKeys ("newPriv", "newPub") ⟨some "oldPriv", some "oldPub"⟩ =
      ⟨some "newPriv", some "newPub"⟩ ∧
    (⟨some "newPriv", some "newPub"⟩ : KeyStore) ≠ ⟨some "oldPriv", some "oldPub"⟩ := by
  exact ⟨rfl, by decide⟩

/-- C7 amended: generateKeys itself always generates a fresh pair and
persists both halves, overwriting whatever exists; the existence check
lives in its caller: the container entrypoint runs generation only
when the private key file is absent, so the guarded provisioning
operation leaves an existing pair unchanged and generates only when no
keypair exists. -/
theorem ensureKeypair_behaviour :
    (∀ (fresh : String × String) (ks : KeyStore),
      generateKeys fresh ks = ⟨some fresh.1, some fresh.2⟩) ∧
    (∀ (fresh : String × String) (ks : KeyStore), ks.privKey.isSome = true →
      ensureKeypair fresh ks = ks) ∧
    (∀ (fresh : String × String) (ks : KeyStore), ks.privKey = none →
      ensureKeypair fresh ks = generateKeys fresh ks) := by
  refine ⟨fun _ _ => rfl, ?_, ?_⟩
  · intro fresh ks h
    rw [ensureKeypair, if_pos h]
  · intro fresh ks h
    rw [ensureKeypair, if_neg]
    rw [h]
    simp

/-- Witness for the amended C7: with an existing pair provisioning
keeps it; with none it generates. -/
theorem ensureKeypair_behaviour_witness :
    ((⟨some "p", some "q"⟩ : KeyStore).privKey.isSome = true ∧
      ensureKeypair ("x", "y") ⟨some "p", some "q"⟩ = ⟨some "p", some "q"⟩) ∧
    ((⟨none, none⟩ : KeyStore).privKey = none ∧
      ensureKeypair ("x", "y") ⟨none, none⟩ = generateKeys ("x", "y") ⟨none, none⟩) :=
  ⟨⟨rfl, ensureKeypair_behaviour.2.1 ("x", "y") ⟨some "p", some "q"⟩ rfl⟩,
   ⟨rfl, ensureKeypair_behaviour.2.2 ("x", "y") ⟨none, none⟩ rfl⟩⟩

/-- C8: with the public key file absent, verifying a non-empty chain
fails with the public key error; with the private key file absent,
ingesting an existing frame fails with the private key error; and
neither operation writes the key files: ingestion changes only the
chain file and verification changes no state at all. -/
theorem read_paths_require_keys :
    (∀ (C : Crypto) (cf : ChainFile) (files : String → Option Bytes) (l : List ChainEntry),
      loadChainVerify cf = .ok l → l ≠ [] →
      verifyChain C none cf files = .error "Public key not found. Run generate_keys.js first.") ∧
    (∀ (C : Crypto) (files : String → Option Bytes) (cf : ChainFile) (p t : String) (d : Bytes),
      files p = some d →
      ingestFrame C none files cf p t =
        .error "Private key not found. Run generate_keys.js first.") ∧
    (∀ (C : Crypto) (s : SysState) (p t : String),
      (ingestFrameS C s p t).1.keys = s.keys ∧ (ingestFrameS C s p t).1.files = s.files) ∧
    (∀ (C : Crypto) (s : SysState), (verifyChainS C s).1 = s) := by
  refine ⟨?_, ?_, ?_, fun C s => rfl⟩
  · intro C cf files l h hne
    rw [verifyChain, h]
    dsimp only
    rw [if_neg (by simpa [List.length_eq_zero] using hne)]
    rfl
  · intro C files cf p t d hp
    rw [ingestFrame, hp]
    rfl
  · intro C s p t
    rw [ingestFrameS]
    rcases h2 : ingestFrame C s.keys.privKey s.files s.chainFile p t with m | pr
    · exact ⟨rfl, rfl⟩
    · exact ⟨rfl, rfl⟩

/-- Witness for C8 at concrete inputs with each key absent in turn. -/
theorem read_paths_require_keys_witness :
    verifyChain demoCrypto none (ChainFile.entries [okE0]) demoFiles =
      .error "Public key not found. Run generate_keys.js first." ∧
    ingestFrame demoCrypto none demoFiles ChainFile.absent "f1.jpg" "t1" =
      .error "Private key not found. Run generate_keys.js first." :=
  ⟨read_paths_require_keys.1 demoCrypto (ChainFile.entries [okE0]) demoFiles [okE0] rfl
      (by simp),
   read_paths_require_keys.2.1 demoCrypto demoFiles ChainFile.absent "f1.jpg" "t1" [10, 20] rfl⟩

set_option maxRecDepth 8192 in
/-- C9, evaluated at the failing input: with a chain.json that exists
but cannot be parsed, the verification path surfaces the load error,
but the ingestion path catches the parse failure, treats the chain as
empty and succeeds: the ingested entry has index 0 and the stored
chain is silently restarted. -/
theorem corrupt_chain_divergence :
    verifyChain demoCrypto (some "k") ChainFile.corrupt demoFiles =
      .error "Failed to load chain.json" ∧
    loadChainIngest ChainFile.corrupt = [] ∧
    ingestFrame demoCrypto (some "k") demoFiles ChainFile.corrupt "f1.jpg" "t1" =
      .ok (okE0, ChainFile.entries [okE0]) ∧
    okE0.index = 0 :=
  ⟨rfl, rfl, rfl, rfl⟩

/-- C10: verifying an empty chain never consults the key store: with
the chain file absent or parsed empty, the result is success with
count 0 for every public key state, including a missing key; and with
the key missing, verification fails with the public key error exactly
on chains that parse to a non-empty list. -/
theorem empty_chain_skips_key_load :
    (∀ (C : Crypto) (pubKey : Option String) (files : String → Option Bytes),
      verifyChain C pubKey ChainFile.absent files =
        .ok ⟨true, none, none, 0, some "Chain is empty"⟩ ∧
      verifyChain C pubKey (ChainFile.entries []) files =
        .ok ⟨true, none, none, 0, some "Chain is empty"⟩) ∧
    (∀ (C : Crypto) (files : String → Option Bytes) (l : List ChainEntry), l ≠ [] →
      verifyChain C none (ChainFile.entries l) files =
        .error "Public key not found. Run generate_keys.js first.") := by
  refine ⟨fun C pubKey files => ⟨rfl, rfl⟩, ?_⟩
  intro C files l hne
  rw [verifyChain]
  rw [show loadChainVerify (ChainFile.entries l) = .ok l from rfl]
  dsimp only
  rw [if_neg (by simpa [List.length_eq_zero] using hne)]
  rfl

/-- Witness for C10: empty chain verifies without any key; a one-entry
chain with the key missing fails with the key error. -/
theorem empty_chain_skips_key_load_witness :
    verifyChain demoCrypto none ChainFile.absent demoFiles =
      .ok ⟨true, none, none, 0, some "Chain is empty"⟩ ∧
    verifyChain demoCrypto none (ChainFile.entries [okE0]) demoFiles =
      .error "Public key not found. Run generate_keys.js first." :=
  ⟨(empty_chain_skips_key_load.1 demoCrypto none demoFiles).1,
   empty_chain_skips_key_load.2 demoCrypto demoFiles [okE0] (by simp)⟩
